import Mathlib

/-!
# Verification of the pagination / token-lifecycle core

A shallow embedding, in Lean 4, of the core utilities of the
node-express-boilerplate repository:

* `paginate` (src/utils/paginate.js): filtered, sorted, paginated queries
  over a Sequelize model backed by Postgres;
* the `User` model hooks and serialization (src/models/user.model.js);
* the error-converter middleware (middlewares/error.js);
* the token lifecycle (token/auth services), modelled from the design
  document where the service source is not part of the snapshot.

JavaScript values that can reach `options.limit` / `options.page` are
modelled by `JSVal`; JS number rendering is modelled for numbers written
in plain decimal notation (the `jnum` constructor carries the sign, the
integer part and the fraction digits of that notation; exponent-notation
renderings are outside the modelled domain).
-/

namespace Boilerplate

/-- A JavaScript value as it may appear in `options.limit` / `options.page`.
`jnum neg ip frac` stands for the number written `±ip.frac` in decimal
notation (`frac` is the list of fraction digits, possibly empty). -/
inductive JSVal where
  | undef
  | jnull
  | jbool (b : Bool)
  | jnum (neg : Bool) (ip : Nat) (frac : List Nat)
  | jstr (s : String)
deriving DecidableEq, Repr

namespace JSVal

/-- Whether a `jnum` denotes the number zero. -/
def numIsZero (ip : Nat) (frac : List Nat) : Bool :=
  ip == 0 && frac.all (· == 0)

/-- JavaScript truthiness, as used by `options.limit && ...` in paginate.js:
`undefined`, `null`, `false`, `0` and `""` are falsy. -/
def truthy : JSVal → Bool
  | undef => false
  | jnull => false
  | jbool b => b
  | jnum _ ip frac => !(numIsZero ip frac)
  | jstr s => s ≠ ""

/-- Digits of the fraction part, rendered as characters. -/
def fracStr (frac : List Nat) : String :=
  String.mk (frac.map (fun d => Char.ofNat (48 + d % 10)))

/-- JavaScript `ToString` on the modelled values (the conversion `parseInt`
applies to a non-string argument).  A zero number renders as `"0"`. -/
def toStringJS : JSVal → String
  | undef => "undefined"
  | jnull => "null"
  | jbool b => if b then "true" else "false"
  | jnum neg ip frac =>
      if numIsZero ip frac then "0"
      else (if neg then "-" else "") ++ toString ip ++
        (if frac.isEmpty then "" else "." ++ fracStr frac)
  | jstr s => s

end JSVal

/-- JavaScript `String.prototype.split` with a single-character separator. -/
def splitChar (sep : Char) : List Char → List (List Char)
  | [] => [[]]
  | c :: cs =>
      let r := splitChar sep cs
      if c = sep then [] :: r
      else
        match r with
        | [] => [[c]]
        | g :: gs => (c :: g) :: gs

/-- `s.split(sep)` on strings. -/
def jsSplit (sep : Char) (s : String) : List String :=
  (splitChar sep s.data).map String.mk

/-- The whitespace characters `parseInt` strips. -/
def isJsSpace (c : Char) : Bool :=
  c = ' ' || c = '\t' || c = '\n' || c = '\r'

/-- Strip leading and trailing whitespace. -/
def trimChars (cs : List Char) : List Char :=
  ((cs.dropWhile isJsSpace).reverse.dropWhile isJsSpace).reverse

/-- JavaScript `parseInt(s, 10)`: trim whitespace, read an optional sign,
then the longest prefix of decimal digits; `none` models `NaN`. -/
def parseInt10 (s : String) : Option Int :=
  let t := trimChars s.data
  let signed : Bool × List Char :=
    match t with
    | '-' :: cs => (true, cs)
    | '+' :: cs => (false, cs)
    | cs => (false, cs)
  let digs := signed.2.takeWhile (·.isDigit)
  if digs.isEmpty then none
  else
    let n : Nat := digs.foldl (fun acc c => acc * 10 + (c.toNat - 48)) 0
    some (if signed.1 then -(n : Int) else (n : Int))

/-- `parseInt(value, 10)` on a JS value: convert to string, then parse. -/
def parseIntJS (v : JSVal) : Option Int :=
  parseInt10 v.toStringJS

/-- `options.limit && parseInt(options.limit, 10) > 0 ? parseInt(options.limit, 10) : 10` -/
def normLimit (v : JSVal) : Nat :=
  if v.truthy then
    match parseIntJS v with
    | some n => if 0 < n then n.toNat else 10
    | none => 10
  else 10

/-- `options.page && parseInt(options.page, 10) > 0 ? parseInt(options.page, 10) : 1` -/
def normPage (v : JSVal) : Nat :=
  if v.truthy then
    match parseIntJS v with
    | some n => if 0 < n then n.toNat else 1
    | none => 1
  else 1

/-- A database row: field name → stored value, rendered as text.
(Timestamps are assumed stored in a lexicographically sortable rendering,
as ISO timestamps are.) -/
abbrev Row := List (String × String)

/-- A Sequelize attribute type: either an ENUM with its declared value list
(in declaration order, which fixes the Postgres enum ordinals), or any
other type. -/
inductive AttrType where
  | enum (values : List String)
  | other
deriving DecidableEq, Repr

/-- A Sequelize model: its raw attributes (the schema) together with the
rows of the backing table. -/
structure Model where
  rawAttributes : List (String × AttrType)
  rows : List Row
deriving Repr

/-- `model.rawAttributes[key]` -/
def Model.attr (m : Model) (key : String) : Option AttrType :=
  (m.rawAttributes.find? (fun kv => kv.1 == key)).map (·.2)

/-- A compiled ORDER BY column: either `sequelize.cast(sequelize.col k, 'TEXT')`
or the plain column. -/
inductive SortCol where
  | castText (name : String)
  | col (name : String)
deriving DecidableEq, Repr

/-- One ORDER BY entry: the column and whether the direction is DESC. -/
abbrev SortEntry := SortCol × Bool

/-- The body of the `map` over `options.sortBy.split(',')` in paginate.js:
`const [key, order] = sortOption.split(':')`; if the attribute is an ENUM
on the model the sort key is cast to TEXT; the direction is DESC exactly
when `order === 'desc'`. -/
def sortKeyOf (m : Model) (sortOption : String) : SortEntry :=
  let parts := jsSplit ':' sortOption
  let key := parts.headD ""
  let order := parts.get? 1
  let desc := order == some "desc"
  match m.attr key with
  | some (.enum _) => (.castText key, desc)
  | _ => (.col key, desc)

/-- The `sort` list built by paginate.js: when `options.sortBy` is truthy
(present and non-empty) it is split on commas and each piece compiled by
`sortKeyOf`; otherwise the default is `[['createdAt', 'DESC']]`. -/
def buildSort (m : Model) (sortBy : Option String) : List SortEntry :=
  match sortBy with
  | some s =>
      if s ≠ "" then (jsSplit ',' s).map (sortKeyOf m)
      else [(.col "createdAt", true)]
  | none => [(.col "createdAt", true)]

/-- Compare two nullable cells under Postgres semantics for an ascending
ORDER BY: SQL NULLs sort last. -/
def cmpNullable (cmp : String → String → Ordering) (x y : Option String) : Ordering :=
  match x, y with
  | none, none => .eq
  | none, some _ => .gt
  | some _, none => .lt
  | some a, some b => cmp a b

/-- The ordinal of an enum value: its position in the declared value list. -/
def enumOrdinal (values : List String) (v : String) : Nat :=
  values.indexOf v

/-- Postgres ordering of one ORDER BY column, ascending: a column cast to
TEXT compares textually; a raw ENUM column compares by declared ordinal;
any other column compares by its text rendering. -/
def baseCmp (m : Model) (c : SortCol) (r1 r2 : Row) : Ordering :=
  match c with
  | .castText k => cmpNullable compare (r1.lookup k) (r2.lookup k)
  | .col k =>
      match m.attr k with
      | some (.enum vs) =>
          cmpNullable (fun a b => compare (enumOrdinal vs a) (enumOrdinal vs b))
            (r1.lookup k) (r2.lookup k)
      | _ => cmpNullable compare (r1.lookup k) (r2.lookup k)

/-- One ORDER BY entry; DESC reverses the ascending ordering. -/
def entryCmp (m : Model) (e : SortEntry) (r1 r2 : Row) : Ordering :=
  let o := baseCmp m e.1 r1 r2
  if e.2 then o.swap else o

/-- Composite ORDER BY: entries applied left to right, the first
non-tie deciding. -/
def rowCmp (m : Model) : List SortEntry → Row → Row → Ordering
  | [], _, _ => .eq
  | e :: es, r1, r2 =>
      match entryCmp m e r1 r2 with
      | .eq => rowCmp m es r1 r2
      | o => o

/-- Insert a row into an already sorted list, before the first strictly
greater element (so equal rows keep their original relative order). -/
def insertSorted (le : Row → Row → Bool) (x : Row) : List Row → List Row
  | [] => [x]
  | y :: ys => if le x y then x :: y :: ys else y :: insertSorted le x ys

/-- Stable insertion sort. -/
def stableSort (le : Row → Row → Bool) : List Row → List Row
  | [] => []
  | x :: xs => insertSorted le x (stableSort le xs)

/-- The WHERE clause: every present filter key must match the row's stored
value exactly (a missing column is SQL NULL and never equal). -/
def matchesFilter (filter : List (String × String)) (r : Row) : Bool :=
  filter.all (fun kv => r.lookup kv.1 == some kv.2)

/-- `model.findAndCountAll({where, order, limit, offset})`: the count is the
number of rows matching the filter (ignoring limit/offset); the rows are
the matching rows ordered by `sort`, with `offset` dropped and at most
`limit` taken. -/
def findAndCountAll (m : Model) (filter : List (String × String))
    (sort : List SortEntry) (limit offset : Nat) : Nat × List Row :=
  let matched := m.rows.filter (matchesFilter filter)
  let sorted := stableSort (fun a b => rowCmp m sort a b ≠ .gt) matched
  (matched.length, (sorted.drop offset).take limit)

/-- `Math.ceil(count / limit)` for naturals with `limit ≥ 1`. -/
def ceilDiv (a b : Nat) : Nat := (a + b - 1) / b

/-- The options object accepted by paginate (the `populate` option only adds
Sequelize includes and does not affect any field of the result). -/
structure Options where
  sortBy : Option String
  limit : JSVal
  page : JSVal
deriving Repr

/-- Default options: all fields absent. -/
def Options.nil : Options := ⟨none, .undef, .undef⟩

/-- The result object of paginate. -/
structure PaginateResult where
  results : List Row
  page : Nat
  limit : Nat
  totalPages : Nat
  totalResults : Nat
deriving DecidableEq, Repr

/-- src/utils/paginate.js: build the sort list, normalize limit and page,
compute `offset = (page - 1) * limit`, run `findAndCountAll`, and return
`{results, page, limit, totalPages: Math.ceil(count / limit), totalResults}`. -/
def paginate (m : Model) (filter : List (String × String)) (o : Options) :
    PaginateResult :=
  let sort := buildSort m o.sortBy
  let limit := normLimit o.limit
  let page := normPage o.page
  let offset := (page - 1) * limit
  let cr := findAndCountAll m filter sort limit offset
  { results := cr.2
    page := page
    limit := limit
    totalPages := ceilDiv cr.1 limit
    totalResults := cr.1 }

/-! ## Supporting lemmas -/

theorem insertSorted_length (le : Row → Row → Bool) (x : Row) (l : List Row) :
    (insertSorted le x l).length = l.length + 1 := by
  induction l with
  | nil => rfl
  | cons y ys ih =>
      unfold insertSorted
      split
      · simp
      · simp [ih]

theorem stableSort_length (le : Row → Row → Bool) (l : List Row) :
    (stableSort le l).length = l.length := by
  induction l with
  | nil => rfl
  | cons x xs ih => simp [stableSort, insertSorted_length, ih]

theorem mem_insertSorted (le : Row → Row → Bool) (x z : Row) (l : List Row) :
    z ∈ insertSorted le x l ↔ z = x ∨ z ∈ l := by
  induction l with
  | nil => simp [insertSorted]
  | cons y ys ih =>
      unfold insertSorted
      split
      · simp
      · simp only [List.mem_cons, ih]
        tauto

theorem mem_stableSort (le : Row → Row → Bool) (z : Row) (l : List Row) :
    z ∈ stableSort le l ↔ z ∈ l := by
  induction l with
  | nil => simp [stableSort]
  | cons x xs ih =>
      simp only [stableSort, mem_insertSorted, ih, List.mem_cons]

theorem normLimit_pos (v : JSVal) : 1 ≤ normLimit v := by
  unfold normLimit
  split
  · split
    · split <;> omega
    · omega
  · omega

theorem normPage_pos (v : JSVal) : 1 ≤ normPage v := by
  unfold normPage
  split
  · split
    · split <;> omega
    · omega
  · omega

theorem le_ceilDiv_mul (a b : Nat) (hb : 1 ≤ b) : a ≤ ceilDiv a b * b := by
  by_contra hcon
  push_neg at hcon
  have h : ceilDiv a b + 1 ≤ (a + b - 1) / b := by
    rw [Nat.le_div_iff_mul_le (show 0 < b by omega)]
    calc (ceilDiv a b + 1) * b = ceilDiv a b * b + b := by ring
      _ ≤ a + b - 1 := by omega
  unfold ceilDiv at h
  omega

/-- A parse that yields a positive integer can only come from a truthy value:
every falsy JS value (`undefined`, `null`, `false`, `0`, `""`) stringifies to
a text whose `parseInt` is `NaN` or `0`. -/
theorem truthy_of_parseIntJS_pos (v : JSVal) (n : Int)
    (h : parseIntJS v = some n) (hn : 0 < n) : v.truthy = true := by
  cases v with
  | undef =>
      rw [show parseIntJS JSVal.undef = none from by decide] at h
      exact Option.noConfusion h
  | jnull =>
      rw [show parseIntJS JSVal.jnull = none from by decide] at h
      exact Option.noConfusion h
  | jbool b =>
      cases b with
      | false =>
          rw [show parseIntJS (JSVal.jbool false) = none from by decide] at h
          exact Option.noConfusion h
      | true => rfl
  | jnum neg ip frac =>
      by_cases hz : JSVal.numIsZero ip frac = true
      · exfalso
        have hs : (JSVal.jnum neg ip frac).toStringJS = "0" := by
          simp only [JSVal.toStringJS]
          rw [if_pos hz]
        have h0 : parseIntJS (.jnum neg ip frac) = some 0 := by
          unfold parseIntJS
          rw [hs]
          decide
        rw [h] at h0
        simp only [Option.some.injEq] at h0
        omega
      · simp [JSVal.truthy, hz]
  | jstr s =>
      by_cases hs : s = ""
      · subst hs
        rw [show parseIntJS (JSVal.jstr "") = none from by decide] at h
        exact Option.noConfusion h
      · simp [JSVal.truthy, hs]

theorem normLimit_of_parse_pos (v : JSVal) (n : Int)
    (h : parseIntJS v = some n) (hn : 0 < n) : normLimit v = n.toNat := by
  unfold normLimit
  rw [truthy_of_parseIntJS_pos v n h hn, h]
  simp [hn]

theorem normPage_of_parse_pos (v : JSVal) (n : Int)
    (h : parseIntJS v = some n) (hn : 0 < n) : normPage v = n.toNat := by
  unfold normPage
  rw [truthy_of_parseIntJS_pos v n h hn, h]
  simp [hn]

theorem normLimit_default (v : JSVal)
    (h : ¬∃ n : Int, parseIntJS v = some n ∧ 0 < n) : normLimit v = 10 := by
  unfold normLimit
  split
  · cases hp : parseIntJS v with
    | none => rfl
    | some n =>
        show (if 0 < n then n.toNat else 10) = 10
        exact if_neg (fun hlt => h ⟨n, hp, hlt⟩)
  · rfl

theorem normPage_default (v : JSVal)
    (h : ¬∃ n : Int, parseIntJS v = some n ∧ 0 < n) : normPage v = 1 := by
  unfold normPage
  split
  · cases hp : parseIntJS v with
    | none => rfl
    | some n =>
        show (if 0 < n then n.toNat else 1) = 1
        exact if_neg (fun hlt => h ⟨n, hp, hlt⟩)
  · rfl

/-! ## Concrete instances (the fixture users of the test suite) -/

def rowAlice : Row :=
  [("name", "Alice"), ("role", "user"), ("createdAt", "2024-01-01T00:00:01Z")]

def rowBob : Row :=
  [("name", "Bob"), ("role", "user"), ("createdAt", "2024-01-01T00:00:02Z")]

def rowCarl : Row :=
  [("name", "Carl"), ("role", "admin"), ("createdAt", "2024-01-01T00:00:03Z")]

/-- The User model: `role` is an ENUM declared as `('user', 'admin')`,
with the three fixture rows inserted in creation order. -/
def usersModel : Model :=
  { rawAttributes :=
      [("id", .other), ("name", .other), ("email", .other),
       ("password", .other), ("role", .enum ["user", "admin"]),
       ("isEmailVerified", .other), ("createdAt", .other), ("updatedAt", .other)]
    rows := [rowAlice, rowBob, rowCarl] }

/-! ## Claim theorems: pagination -/

/-- C1: for every filter and options, `paginate` returns
`totalResults` = the count of rows matching the filter (ignoring
limit/offset), `totalPages = ceil(totalResults / limit)`, queries the sorted
matching rows at `offset = (page - 1) * limit`, returns
`results.length = min(limit, max(0, totalResults - limit*(page-1)))`, and a
page beyond `totalPages` yields an empty result list (the other fields being
populated as stated, not an error). -/
theorem paginate_pagination_math (m : Model) (f : List (String × String))
    (o : Options) :
    (paginate m f o).totalResults = (m.rows.filter (matchesFilter f)).length ∧
    (paginate m f o).totalPages =
      ceilDiv (paginate m f o).totalResults (paginate m f o).limit ∧
    (paginate m f o).results =
      ((stableSort (fun a b => rowCmp m (buildSort m o.sortBy) a b ≠ .gt)
          (m.rows.filter (matchesFilter f))).drop
        (((paginate m f o).page - 1) * (paginate m f o).limit)).take
        (paginate m f o).limit ∧
    ((paginate m f o).results.length : ℤ) =
      min ((paginate m f o).limit : ℤ)
        (max 0 (((paginate m f o).totalResults : ℤ) -
          ((paginate m f o).limit : ℤ) * (((paginate m f o).page : ℤ) - 1))) ∧
    ((paginate m f o).totalPages < (paginate m f o).page →
      (paginate m f o).results = []) := by
  have hP := normPage_pos o.page
  have hL := normLimit_pos o.limit
  refine ⟨rfl, rfl, rfl, ?_, ?_⟩
  · show ((((stableSort (fun a b => rowCmp m (buildSort m o.sortBy) a b ≠ .gt)
        (m.rows.filter (matchesFilter f))).drop
          ((normPage o.page - 1) * normLimit o.limit)).take
          (normLimit o.limit)).length : ℤ) = _
    rw [List.length_take, List.length_drop, stableSort_length]
    have hprod : ((normLimit o.limit : ℤ)) * ((normPage o.page : ℤ) - 1) =
        (((normPage o.page - 1) * normLimit o.limit : Nat) : ℤ) := by
      push_cast [Nat.cast_sub hP]
      ring
    show _ = min ((normLimit o.limit : ℤ))
        (max 0 (((m.rows.filter (matchesFilter f)).length : ℤ) -
          ((normLimit o.limit : ℤ)) * ((normPage o.page : ℤ) - 1)))
    rw [hprod]
    generalize (normPage o.page - 1) * normLimit o.limit = q
    omega
  · intro h
    replace h : ceilDiv (m.rows.filter (matchesFilter f)).length
        (normLimit o.limit) < normPage o.page := h
    have h2 := le_ceilDiv_mul (m.rows.filter (matchesFilter f)).length
      (normLimit o.limit) hL
    have h1 : (m.rows.filter (matchesFilter f)).length ≤
        (normPage o.page - 1) * normLimit o.limit := by
      calc (m.rows.filter (matchesFilter f)).length
          ≤ ceilDiv (m.rows.filter (matchesFilter f)).length
              (normLimit o.limit) * normLimit o.limit := h2
        _ ≤ (normPage o.page - 1) * normLimit o.limit :=
            Nat.mul_le_mul_right _ (by omega)
    show ((stableSort (fun a b => rowCmp m (buildSort m o.sortBy) a b ≠ .gt)
        (m.rows.filter (matchesFilter f))).drop
          ((normPage o.page - 1) * normLimit o.limit)).take
          (normLimit o.limit) = []
    rw [List.drop_eq_nil_of_le (by rw [stableSort_length]; exact h1)]
    exact List.take_nil

/-- Witness for C1 at a concrete input: three fixture users, limit 2, page 5
(beyond the 2 total pages) — the result list is empty. -/
theorem paginate_pagination_math_witness :
    (paginate usersModel [] ⟨none, .jnum false 2 [], .jnum false 5 []⟩).results
      = [] :=
  (paginate_pagination_math usersModel []
    ⟨none, .jnum false 2 [], .jnum false 5 []⟩).2.2.2.2 (by decide)

/-- C2: an `options.limit` that is zero, negative or non-numeric (its
`parseInt` is non-positive or `NaN`) normalizes to 10, an `options.page` of
that kind normalizes to 1, and the returned `limit` and `page` fields equal
the normalized values. -/
theorem paginate_invalid_options_default (m : Model)
    (f : List (String × String)) (o : Options)
    (hlim : ¬∃ n : Int, parseIntJS o.limit = some n ∧ 0 < n)
    (hpage : ¬∃ n : Int, parseIntJS o.page = some n ∧ 0 < n) :
    (paginate m f o).limit = 10 ∧ (paginate m f o).page = 1 ∧
    (paginate m f o).limit = normLimit o.limit ∧
    (paginate m f o).page = normPage o.page := by
  refine ⟨?_, ?_, rfl, rfl⟩
  · show normLimit o.limit = 10
    exact normLimit_default _ hlim
  · show normPage o.page = 1
    exact normPage_default _ hpage

/-- Witness for C2: limit `"abc"` (non-numeric) and page `-3` (negative)
default to 10 and 1. -/
theorem paginate_invalid_options_default_witness :
    (paginate usersModel [] ⟨none, .jstr "abc", .jnum true 3 []⟩).limit = 10 ∧
    (paginate usersModel [] ⟨none, .jstr "abc", .jnum true 3 []⟩).page = 1 ∧
    (paginate usersModel [] ⟨none, .jstr "abc", .jnum true 3 []⟩).limit =
      normLimit (.jstr "abc") ∧
    (paginate usersModel [] ⟨none, .jstr "abc", .jnum true 3 []⟩).page =
      normPage (.jnum true 3 []) :=
  paginate_invalid_options_default usersModel []
    ⟨none, .jstr "abc", .jnum true 3 []⟩
    (by decide) (by decide)

/-- C10: an `options.limit` (resp. `options.page`) whose decimal-prefix
integer parse is a positive `n` — e.g. the number `5.9` or the strings
`"5"`, `"5x"` — is used as the effective limit (resp. page) instead of
the 10 (resp. 1) default; only values whose parse is non-positive or `NaN`
are defaulted. -/
theorem paginate_positive_parse_used (m : Model) (f : List (String × String))
    (o : Options) (nl np : Int)
    (hl : parseIntJS o.limit = some nl) (hlpos : 0 < nl)
    (hp : parseIntJS o.page = some np) (hppos : 0 < np) :
    (paginate m f o).limit = nl.toNat ∧ (paginate m f o).page = np.toNat ∧
    (∀ v : JSVal, (¬∃ n : Int, parseIntJS v = some n ∧ 0 < n) →
      normLimit v = 10 ∧ normPage v = 1) := by
  refine ⟨?_, ?_, fun v hv => ⟨normLimit_default v hv, normPage_default v hv⟩⟩
  · show normLimit o.limit = nl.toNat
    exact normLimit_of_parse_pos _ _ hl hlpos
  · show normPage o.page = np.toNat
    exact normPage_of_parse_pos _ _ hp hppos

/-- Witness for C10: limit `5.9` parses to 5 and is used; page `"5x"`
parses to 5 and is used. -/
theorem paginate_positive_parse_used_witness :
    (paginate usersModel [] ⟨none, .jnum false 5 [9], .jstr "5x"⟩).limit =
      (5 : Int).toNat ∧
    (paginate usersModel [] ⟨none, .jnum false 5 [9], .jstr "5x"⟩).page =
      (5 : Int).toNat ∧
    (∀ v : JSVal, (¬∃ n : Int, parseIntJS v = some n ∧ 0 < n) →
      normLimit v = 10 ∧ normPage v = 1) :=
  paginate_positive_parse_used usersModel []
    ⟨none, .jnum false 5 [9], .jstr "5x"⟩ 5 5
    (by decide) (by decide) (by decide) (by decide)

/-- C3: every row returned by `paginate` matches every provided filter
field exactly (present keys ANDed, absent keys unconstrained), the empty
filter matches every row, and a filter matched by no row yields
`results = []`, `totalResults = 0` and `totalPages = 0`. -/
theorem paginate_filter_exact_match (m : Model) (f : List (String × String))
    (o : Options) :
    (∀ r ∈ (paginate m f o).results, matchesFilter f r = true) ∧
    (∀ r ∈ (paginate m f o).results, ∀ kv ∈ f, r.lookup kv.1 = some kv.2) ∧
    (∀ r : Row, matchesFilter [] r = true) ∧
    ((∀ r ∈ m.rows, matchesFilter f r = false) →
      (paginate m f o).results = [] ∧ (paginate m f o).totalResults = 0 ∧
      (paginate m f o).totalPages = 0) := by
  have hmem : ∀ r ∈ (paginate m f o).results, matchesFilter f r = true := by
    intro r hr
    have h1 : r ∈ (stableSort
        (fun a b => rowCmp m (buildSort m o.sortBy) a b ≠ .gt)
        (m.rows.filter (matchesFilter f))).drop
          ((normPage o.page - 1) * normLimit o.limit) :=
      List.take_subset _ _ hr
    have h2 : r ∈ stableSort
        (fun a b => rowCmp m (buildSort m o.sortBy) a b ≠ .gt)
        (m.rows.filter (matchesFilter f)) :=
      List.drop_subset _ _ h1
    have h3 : r ∈ m.rows.filter (matchesFilter f) :=
      (mem_stableSort _ r _).mp h2
    exact (List.mem_filter.mp h3).2
  refine ⟨hmem, ?_, fun _ => rfl, ?_⟩
  · intro r hr kv hkv
    have h := hmem r hr
    simp only [matchesFilter, List.all_eq_true] at h
    have := h kv hkv
    simpa using this
  · intro hnone
    have hfil : m.rows.filter (matchesFilter f) = [] := by
      rw [List.filter_eq_nil_iff]
      intro r hr
      simp [hnone r hr]
    have hres : (paginate m f o).results = [] := by
      show ((stableSort (fun a b => rowCmp m (buildSort m o.sortBy) a b ≠ .gt)
          (m.rows.filter (matchesFilter f))).drop
            ((normPage o.page - 1) * normLimit o.limit)).take
            (normLimit o.limit) = []
      rw [hfil]
      simp [stableSort]
    have htot : (paginate m f o).totalResults = 0 := by
      show (m.rows.filter (matchesFilter f)).length = 0
      rw [hfil]
      rfl
    refine ⟨hres, htot, ?_⟩
    show ceilDiv (m.rows.filter (matchesFilter f)).length (normLimit o.limit) = 0
    rw [hfil]
    show ceilDiv 0 (normLimit o.limit) = 0
    have hL := normLimit_pos o.limit
    unfold ceilDiv
    exact Nat.div_eq_of_lt (by omega)

/-- Witness for C3: `{role: "admin"}` over the fixtures returns only Carl's
row (which matches the filter), and a filter nobody matches returns the
empty page. -/
theorem paginate_filter_exact_match_witness :
    matchesFilter [("role", "admin")] rowCarl = true ∧
    ((paginate usersModel [("email", "nobody@example.com")] Options.nil).results
        = [] ∧
      (paginate usersModel [("email", "nobody@example.com")] Options.nil).totalResults
        = 0 ∧
      (paginate usersModel [("email", "nobody@example.com")] Options.nil).totalPages
        = 0) :=
  ⟨(paginate_filter_exact_match usersModel [("role", "admin")] Options.nil).1
      rowCarl (by decide),
   (paginate_filter_exact_match usersModel [("email", "nobody@example.com")]
      Options.nil).2.2.2 (by decide)⟩

/-- C4 counterexample: the claim says a `field:direction` pair whose
direction is `"desc"` in any letter case sorts descending; but with
`sortBy = "name:DESC"` the compiled direction flag is ascending and the
three fixture rows come back in ascending name order, not the descending
order the claim requires. -/
theorem paginate_sortBy_case_insensitive_cex :
    (sortKeyOf usersModel "name:DESC").2 = false ∧
    (paginate usersModel [] ⟨some "name:DESC", .undef, .undef⟩).results
      = [rowAlice, rowBob, rowCarl] ∧
    (paginate usersModel [] ⟨some "name:DESC", .undef, .undef⟩).results
      ≠ [rowCarl, rowBob, rowAlice] := by
  decide

/-- C4 amended: the direction token is compared case-sensitively — a pair
sorts descending exactly when its direction token is the literal `"desc"`
(so `"DESC"`, `"Desc"`, … sort ascending, like every other non-`"desc"`
value), and an absent `sortBy` sorts by creation timestamp descending. -/
theorem paginate_sortBy_direction_case_sensitive (m : Model) (s : String) :
    (sortKeyOf m s).2 = ((jsSplit ':' s).get? 1 == some "desc") ∧
    (∀ d : String, (jsSplit ':' s).get? 1 = some d → d ≠ "desc" →
      (sortKeyOf m s).2 = false) ∧
    buildSort m none = [(.col "createdAt", true)] ∧
    (paginate usersModel [] ⟨some "name:desc", .undef, .undef⟩).results
      = [rowCarl, rowBob, rowAlice] ∧
    (paginate usersModel [] ⟨some "name:DESC", .undef, .undef⟩).results
      = [rowAlice, rowBob, rowCarl] := by
  have hflag : (sortKeyOf m s).2 = ((jsSplit ':' s).get? 1 == some "desc") := by
    cases h : m.attr ((jsSplit ':' s).headD "") with
    | none => simp only [sortKeyOf]; rw [h]
    | some t =>
        cases t with
        | enum vs => simp only [sortKeyOf]; rw [h]
        | other => simp only [sortKeyOf]; rw [h]
  refine ⟨hflag, ?_, rfl, by decide, by decide⟩
  intro d hd hne
  rw [hflag, hd]
  simp [hne]

/-- Witness for C4 (amended): at `sortBy = "name:DESC"` the direction token
is `"DESC" ≠ "desc"` and the compiled flag is ascending. -/
theorem paginate_sortBy_direction_case_sensitive_witness :
    (sortKeyOf usersModel "name:DESC").2 = false :=
  (paginate_sortBy_direction_case_sensitive usersModel "name:DESC").2.1
    "DESC" (by decide) (by decide)

/-- C5: a sortBy field backed by an ENUM domain on the model is compiled to
a sort key cast to TEXT, which compares values textually — not by the enum's
declared ordinal; over the fixtures, `sortBy = "role:desc,name:asc"` yields
[(user,Alice), (user,Bob), (admin,Carl)], which differs from the ordering
the raw (ordinal) enum column would produce. -/
theorem paginate_enum_sort_textual (m : Model) (key s : String)
    (vs : List String)
    (hattr : m.attr key = some (.enum vs))
    (hkey : (jsSplit ':' s).headD "" = key) :
    (sortKeyOf m s).1 = .castText key ∧
    (∀ r1 r2 : Row, baseCmp m (.castText key) r1 r2 =
      cmpNullable compare (r1.lookup key) (r2.lookup key)) ∧
    (paginate usersModel [] ⟨some "role:desc,name:asc", .undef, .undef⟩).results
      = [rowAlice, rowBob, rowCarl] ∧
    (paginate usersModel [] ⟨some "role:desc,name:asc", .undef, .undef⟩).results
      ≠ stableSort
          (fun a b => rowCmp usersModel
            [(SortCol.col "role", true), (SortCol.col "name", false)] a b ≠ .gt)
          usersModel.rows := by
  refine ⟨?_, fun r1 r2 => rfl, by decide, by decide⟩
  simp only [sortKeyOf, hkey, hattr]

/-- Witness for C5: the `role` attribute of the User model is an ENUM, and
`sortBy = "role:desc"` compiles it to a TEXT-cast sort key. -/
theorem paginate_enum_sort_textual_witness :
    (sortKeyOf usersModel "role:desc").1 = .castText "role" :=
  (paginate_enum_sort_textual usersModel "role" "role:desc" ["user", "admin"]
    (by decide) (by decide)).1

/-! ## The User model (src/models/user.model.js) -/

/-- A value that can sit in the `password` column.  `bcrypt.hash` is one-way,
so a hash is modelled opaquely as a constructor recording the cost factor and
the preimage; `plain` is a raw string as supplied by a caller. -/
inductive Pw where
  | plain (s : String)
  | hash (rounds : Nat) (preimage : Pw)
deriving DecidableEq, Repr

/-- `bcrypt.hash(value, 8)` as invoked by the `beforeSave` hook. -/
def bcryptHash8 (p : Pw) : Pw := .hash 8 p

/-- Whether a stored value is a bcrypt hash (i.e. not plaintext). -/
def Pw.isHashed : Pw → Bool
  | .plain _ => false
  | .hash _ _ => true

/-- A User record, with Sequelize's per-field dirty tracking for the
password column (`user.changed('password')`). -/
structure UserRec where
  name : String
  email : String
  password : Pw
  role : String
  isEmailVerified : Bool
  passwordChanged : Bool
deriving DecidableEq, Repr

/-- Assigning the password field stores the raw value and marks the column
changed, as a Sequelize attribute set does. -/
def setPassword (u : UserRec) (s : String) : UserRec :=
  { u with password := .plain s, passwordChanged := true }

/-- The `beforeSave` hook: if `user.changed('password')`, replace the
password with `bcrypt.hash(user.password, 8)`. -/
def beforeSaveHook (u : UserRec) : UserRec :=
  if u.passwordChanged then { u with password := bcryptHash8 u.password }
  else u

/-- Persisting a record: Sequelize runs the `beforeSave` hook, writes the
row, and clears the dirty flags. -/
def saveUser (u : UserRec) : UserRec :=
  let u' := beforeSaveHook u
  { u' with passwordChanged := false }

/-- `User.create({name, email, password, role})`: a fresh record has every
supplied column marked changed, then is saved (running the hook). -/
def createUser (name email password role : String) : UserRec :=
  saveUser
    { name := name, email := email, password := .plain password,
      role := role, isEmailVerified := false, passwordChanged := true }

/-- A serialized field value. -/
inductive FieldVal where
  | str (s : String)
  | bool (b : Bool)
  | pw (p : Pw)
deriving DecidableEq, Repr

/-- `{ ...this.get() }`: all column values of the record. -/
def userValues (u : UserRec) : List (String × FieldVal) :=
  [("name", .str u.name), ("email", .str u.email),
   ("password", .pw u.password), ("role", .str u.role),
   ("isEmailVerified", .bool u.isEmailVerified)]

/-- `User.prototype.toJSON`: copy the values and `delete values.password`. -/
def userToJSON (u : UserRec) : List (String × FieldVal) :=
  (userValues u).filter (fun kv => kv.1 ≠ "password")

/-! ## The error converter (middlewares/error.js) -/

/-- The typed boundary error: `new ApiError(statusCode, message,
isOperational, stack)`. -/
structure ApiError where
  statusCode : Nat
  message : String
  isOperational : Bool
  stack : String
deriving DecidableEq, Repr

/-- An untyped JS error as the converter inspects it: its own
`statusCode` (`none` models `undefined`), whether it is a Sequelize
`ValidationError` / `DatabaseError`, its message (`""` models a missing
message, which is falsy) and stack. -/
structure JsError where
  statusCode : Option Nat
  isValidationError : Bool
  isDatabaseError : Bool
  message : String
  stack : String
deriving DecidableEq, Repr

/-- An error reaching the converter is either already an `ApiError` or an
untyped error. -/
inductive IncomingError where
  | api (e : ApiError)
  | js (e : JsError)
deriving DecidableEq, Repr

/-- `httpStatus[code]` for the codes the converter can produce. -/
def httpStatusMsg (c : Nat) : String :=
  if c = 400 then "Bad Request"
  else if c = 500 then "Internal Server Error"
  else ""

/-- `errorConverter`: an `ApiError` passes through unchanged; otherwise
`statusCode = error.statusCode ? error.statusCode : (ValidationError ||
DatabaseError ? 400 : 500)`, `message = error.message || httpStatus[statusCode]`,
wrapped as `new ApiError(statusCode, message, false, err.stack)`. -/
def errorConverter : IncomingError → ApiError
  | .api e => e
  | .js e =>
      let fallback : Nat :=
        if e.isValidationError || e.isDatabaseError then 400 else 500
      let sc : Nat :=
        match e.statusCode with
        | some c => if c = 0 then fallback else c
        | none => fallback
      let msg : String := if e.message ≠ "" then e.message else httpStatusMsg sc
      ⟨sc, msg, false, e.stack⟩

/-! ## The token lifecycle

The token and auth services themselves are not part of this source
snapshot (only the Token model, the controllers calling them and their
tests are), so the operations below are modelled from the design
document's §4.2 contract for the TokenLifecycleManager. -/

/-- Token kinds; the persisted enum of the Token model is
(refresh, resetPassword, verifyEmail) — access tokens are not persisted. -/
inductive TokenType where
  | access
  | refresh
  | resetPw
  | verifyEmail
deriving DecidableEq, Repr

/-- Whether a token kind is persisted for revocation. -/
def isPersistedType : TokenType → Bool
  | .access => false
  | _ => true

/-- The claims a signed token embeds: subject id, issue time, expiry
time and type. -/
structure Payload where
  sub : String
  iat : Nat
  exp : Nat
  type : TokenType
deriving DecidableEq, Repr

/-- Modelled from the spec: a signed, tamper-evident token.  `key` is the
signing key used to produce it; verification against a secret succeeds
exactly when the keys agree (tamper-evidence) — the signature itself is
abstracted away. -/
structure SignedToken where
  payload : Payload
  key : String
deriving DecidableEq, Repr

/-- A persisted Token row (src/models/token.model.js): the opaque signed
string, owning user id, type, expiry and blacklisted flag. -/
structure TokenRec where
  token : SignedToken
  userId : String
  type : TokenType
  expires : Nat
  blacklisted : Bool
deriving DecidableEq, Repr

/-- An auth failure surfaced to the boundary. -/
inductive AuthFailure where
  | unauthorized
  | notFound
deriving DecidableEq, Repr

/-- Modelled from the spec: signature + expiry verification of a signed
token (the stateless part of `verifyToken`).  It fails when the signature
is invalid (the token was not signed with `secret`) or the embedded expiry
has passed. -/
def jwtVerify (secret : String) (now : Nat) (t : SignedToken) : Option Payload :=
  if t.key = secret ∧ now < t.payload.exp then some t.payload else none

/-- The result of `verifyToken`: the claims, and for persisted kinds the
matching store record. -/
structure VerifiedToken where
  payload : Payload
  record : Option TokenRec
deriving DecidableEq, Repr

/-- Modelled from the spec: `verifyToken(tokenString, expectedType)` fails
with Unauthorized if the signature is invalid, the embedded type mismatches,
the token is expired, or — for persisted types only — no non-blacklisted
store record for this token string, type and subject exists.  Access tokens
are checked by signature + expiry alone (no store lookup). -/
def verifyToken (store : List TokenRec) (secret : String) (now : Nat)
    (t : SignedToken) (expected : TokenType) :
    Except AuthFailure VerifiedToken :=
  match jwtVerify secret now t with
  | none => .error .unauthorized
  | some payload =>
      if payload.type ≠ expected then .error .unauthorized
      else if isPersistedType expected then
        match store.find? (fun r =>
            r.token == t && r.type == expected && r.userId == payload.sub &&
            !r.blacklisted) with
        | none => .error .unauthorized
        | some r => .ok ⟨payload, some r⟩
      else .ok ⟨payload, none⟩

/-- Signing configuration: key and the two independent lifetimes. -/
structure JwtConfig where
  secret : String
  accessExpirationMinutes : Nat
  refreshExpirationDays : Nat
deriving Repr

/-- Modelled from the spec: `generateToken` embeds subject id, issue time,
expiry time and type into a signed token. -/
def generateToken (sub : String) (iat exp : Nat) (ty : TokenType)
    (secret : String) : SignedToken :=
  ⟨⟨sub, iat, exp, ty⟩, secret⟩

/-- Modelled from the spec: persist a freshly issued token as a
non-blacklisted row. -/
def saveToken (store : List TokenRec) (t : SignedToken) (userId : String)
    (ty : TokenType) (expires : Nat) : List TokenRec :=
  ⟨t, userId, ty, expires, false⟩ :: store

/-- Modelled from the spec: `generateAuthTokens(user)` issues a short-lived
access token (not persisted) and a longer-lived refresh token (persisted),
returning the new store and the pair. -/
def generateAuthTokens (cfg : JwtConfig) (store : List TokenRec) (now : Nat)
    (userId : String) : List TokenRec × SignedToken × SignedToken :=
  let accessExp := now + 60 * cfg.accessExpirationMinutes
  let refreshExp := now + 86400 * cfg.refreshExpirationDays
  let access := generateToken userId now accessExp .access cfg.secret
  let refresh := generateToken userId now refreshExp .refresh cfg.secret
  (saveToken store refresh userId .refresh refreshExp, access, refresh)

/-- Modelled from the spec: `refreshAuth` verifies the refresh token,
deletes the matching persisted row, and issues a fresh pair; it fails with
Unauthorized on any verification failure and never partially rotates. -/
def refreshAuth (cfg : JwtConfig) (store : List TokenRec) (now : Nat)
    (t : SignedToken) :
    Except AuthFailure (List TokenRec × SignedToken × SignedToken) :=
  match verifyToken store cfg.secret now t .refresh with
  | .error _ => .error .unauthorized
  | .ok v =>
      match v.record with
      | none => .error .unauthorized
      | some r =>
          let store' := store.filter (fun x => x ≠ r)
          .ok (generateAuthTokens cfg store' now v.payload.sub)

/-- The store state `resetPassword` acts on: the token rows and the user
table (user id → stored password). -/
structure AuthState where
  tokens : List TokenRec
  users : List (String × Pw)
deriving DecidableEq, Repr

/-- Modelled from the spec: `resetPassword(tokenString, newPassword)`
verifies the reset token, updates the owning user's password (hashed at the
write boundary), and consumes the token — every reset-password row of that
user is deleted before returning — failing with Unauthorized on any
verification failure (a missing user is folded into Unauthorized, as §7
folds token NotFound into Unauthorized). -/
def resetPassword (cfg : JwtConfig) (st : AuthState) (now : Nat)
    (t : SignedToken) (newPassword : String) : Except AuthFailure AuthState :=
  match verifyToken st.tokens cfg.secret now t .resetPw with
  | .error _ => .error .unauthorized
  | .ok v =>
      let uid := v.payload.sub
      if (st.users.lookup uid).isSome then
        .ok { tokens := st.tokens.filter
                (fun r => ¬(r.userId = uid ∧ r.type = .resetPw))
              users := st.users.map
                (fun kv => if kv.1 = uid then (kv.1, .hash 8 (.plain newPassword))
                  else kv) }
      else .error .unauthorized

/-- Modelled from the spec: `logout(refreshTokenString)` finds the matching
persisted, non-blacklisted refresh token and deletes it; it fails with
NotFound if absent. -/
def logout (store : List TokenRec) (t : SignedToken) :
    Except AuthFailure (List TokenRec) :=
  match store.find? (fun r =>
      r.token == t && r.type == .refresh && !r.blacklisted) with
  | none => .error .notFound
  | some r => .ok (store.filter (fun x => x ≠ r))

/-! ## Token lifecycle lemmas -/

theorem jwtVerify_some (secret : String) (now : Nat) (t : SignedToken)
    (p : Payload) (h : jwtVerify secret now t = some p) :
    p = t.payload ∧ t.key = secret ∧ now < t.payload.exp := by
  unfold jwtVerify at h
  by_cases hc : t.key = secret ∧ now < t.payload.exp
  · rw [if_pos hc] at h
    injection h with h
    exact ⟨h.symm, hc.1, hc.2⟩
  · rw [if_neg hc] at h
    exact Option.noConfusion h

/-- If every store row for this token string, type and subject is
blacklisted (in particular if there is none), a persisted-type
verification fails with Unauthorized. -/
theorem verifyToken_err_of_all_blacklisted (store : List TokenRec)
    (secret : String) (now : Nat) (t : SignedToken) (expected : TokenType)
    (hpers : isPersistedType expected = true)
    (hall : ∀ r ∈ store, r.token = t → r.type = expected →
      r.userId = t.payload.sub → r.blacklisted = true) :
    verifyToken store secret now t expected = .error .unauthorized := by
  unfold verifyToken
  split
  · rfl
  · rename_i p hj
    obtain ⟨hp, _, _⟩ := jwtVerify_some _ _ _ _ hj
    subst hp
    split
    · rfl
    · have hnone : store.find? (fun r =>
          r.token == t && r.type == expected && r.userId == t.payload.sub &&
          !r.blacklisted) = none := by
        rw [List.find?_eq_none]
        intro r hr hpred
        simp only [Bool.and_eq_true, beq_iff_eq, Bool.not_eq_true'] at hpred
        obtain ⟨⟨⟨h1, h2⟩, h3⟩, h4⟩ := hpred
        rw [hall r hr h1 h2 h3] at h4
        exact Bool.noConfusion h4
      rw [hnone]

/-- What a successful verification guarantees: valid signature, not yet
expired, matching type, the token's own claims, and — for persisted
kinds — a non-blacklisted store row for this token string, type and
subject. -/
theorem verifyToken_ok_inv (store : List TokenRec) (secret : String)
    (now : Nat) (t : SignedToken) (expected : TokenType) (v : VerifiedToken)
    (h : verifyToken store secret now t expected = .ok v) :
    t.key = secret ∧ now < t.payload.exp ∧ t.payload.type = expected ∧
    v.payload = t.payload ∧
    (isPersistedType expected = true → ∃ r, v.record = some r ∧ r ∈ store ∧
      r.token = t ∧ r.type = expected ∧ r.userId = t.payload.sub ∧
      r.blacklisted = false) := by
  unfold verifyToken at h
  split at h
  · exact Except.noConfusion h
  · rename_i p hj
    obtain ⟨hp, hkey, hexp⟩ := jwtVerify_some _ _ _ _ hj
    subst hp
    split at h
    · exact Except.noConfusion h
    · rename_i hty
      push_neg at hty
      refine ⟨hkey, hexp, hty, ?_, ?_⟩ <;>
        by_cases hpers : isPersistedType expected = true
      · rw [if_pos hpers] at h
        split at h
        · exact Except.noConfusion h
        · injection h with h
          rw [← h]
      · rw [if_neg hpers] at h
        injection h with h
        rw [← h]
      · intro _
        rw [if_pos hpers] at h
        split at h
        · exact Except.noConfusion h
        · rename_i r hf
          injection h with h
          have hmem := List.mem_of_find?_eq_some hf
          have hpred := List.find?_some hf
          simp only [Bool.and_eq_true, beq_iff_eq, Bool.not_eq_true']
            at hpred
          exact ⟨r, by rw [← h], hmem, hpred.1.1.1, hpred.1.1.2,
            hpred.1.2, hpred.2⟩
      · intro hc
        exact absurd hc hpers

theorem jwtVerify_none_of (secret : String) (now : Nat) (t : SignedToken)
    (h : t.key ≠ secret ∨ t.payload.exp ≤ now) :
    jwtVerify secret now t = none := by
  unfold jwtVerify
  rw [if_neg]
  rintro ⟨h1, h2⟩
  cases h with
  | inl hx => exact hx h1
  | inr hx => omega

theorem verifyToken_err_of_jwt_none (store : List TokenRec) (secret : String)
    (now : Nat) (t : SignedToken) (expected : TokenType)
    (h : jwtVerify secret now t = none) :
    verifyToken store secret now t expected = .error .unauthorized := by
  unfold verifyToken
  rw [h]

theorem verifyToken_err_of_type_mismatch (store : List TokenRec)
    (secret : String) (now : Nat) (t : SignedToken) (expected : TokenType)
    (hty : t.payload.type ≠ expected) :
    verifyToken store secret now t expected = .error .unauthorized := by
  unfold verifyToken
  split
  · rfl
  · rename_i p hj
    obtain ⟨hp, _, _⟩ := jwtVerify_some _ _ _ _ hj
    subst hp
    rw [if_pos hty]

/-! ## Claim theorems: user model and error converter -/

/-- C8: the stored password is always a bcrypt hash of the supplied
password, every operation (create, password update, save of other fields)
preserves that, and the JSON serialization of a user record contains no
password field at all. -/
theorem user_password_never_plaintext (name email password role : String)
    (u : UserRec) (s : String) :
    (createUser name email password role).password = .hash 8 (.plain password) ∧
    (saveUser (setPassword u s)).password = .hash 8 (.plain s) ∧
    (u.password.isHashed = true → (saveUser u).password.isHashed = true) ∧
    (∀ n', u.passwordChanged = false →
      (saveUser { u with name := n' }).password = u.password) ∧
    (userToJSON u).lookup "password" = none := by
  refine ⟨rfl, rfl, ?_, ?_, ?_⟩
  · intro h
    unfold saveUser beforeSaveHook
    split
    · cases hp : u.password with
      | plain s0 => rw [hp] at h; simp [Pw.isHashed] at h
      | hash r p => simp [bcryptHash8, Pw.isHashed]
    · simpa using h
  · intro n' hflag
    unfold saveUser beforeSaveHook
    rw [if_neg (by simp [hflag])]
  · rfl

/-- Witness for C8 at a concrete record: a saved user whose password was
hashed at creation keeps a hashed password across a further save, an
unchanged-password save keeps the same stored hash, and its JSON has no
password key. -/
theorem user_password_never_plaintext_witness :
    (createUser "Alice" "alice@example.com" "password1" "user").password
      = .hash 8 (.plain "password1") ∧
    (saveUser (setPassword (createUser "Alice" "alice@example.com" "password1" "user") "newpass1")).password
      = .hash 8 (.plain "newpass1") ∧
    ((createUser "Alice" "alice@example.com" "password1" "user").password.isHashed = true →
      (saveUser (createUser "Alice" "alice@example.com" "password1" "user")).password.isHashed = true) ∧
    (∀ n', (createUser "Alice" "alice@example.com" "password1" "user").passwordChanged = false →
      (saveUser { createUser "Alice" "alice@example.com" "password1" "user" with name := n' }).password
        = (createUser "Alice" "alice@example.com" "password1" "user").password) ∧
    (userToJSON (createUser "Alice" "alice@example.com" "password1" "user")).lookup "password" = none :=
  user_password_never_plaintext "Alice" "alice@example.com" "password1" "user"
    (createUser "Alice" "alice@example.com" "password1" "user") "newpass1"

/-- C9: at the boundary converter, an error that is not already an
`ApiError` is always converted: a Sequelize validation error or database
constraint violation (with no status code of its own) becomes a status-400
`ApiError` carrying the original message; any other untyped error without
its own status code becomes a status-500 `ApiError`; an `ApiError` passes
through unchanged. -/
theorem errorConverter_translates_errors (e : JsError) (a : ApiError)
    (hsc : e.statusCode = none) (hmsg : e.message ≠ "") :
    ((e.isValidationError || e.isDatabaseError) = true →
      errorConverter (.js e) = ⟨400, e.message, false, e.stack⟩) ∧
    ((e.isValidationError || e.isDatabaseError) = false →
      errorConverter (.js e) = ⟨500, e.message, false, e.stack⟩) ∧
    errorConverter (.api a) = a := by
  refine ⟨?_, ?_, rfl⟩
  · intro h
    simp only [errorConverter, hsc, h, if_true]
    rw [if_pos hmsg]
  · intro h
    simp only [errorConverter, hsc, h]
    rw [if_neg (by simp), if_pos hmsg]

/-- Witness for C9: a concrete Sequelize validation error becomes a 400
`ApiError` with its message; a concrete untyped error becomes a 500. -/
theorem errorConverter_translates_errors_witness :
    errorConverter (.js ⟨none, true, false, "email must be unique", "st1"⟩)
      = ⟨400, "email must be unique", false, "st1"⟩ ∧
    errorConverter (.js ⟨none, false, false, "boom", "st2"⟩)
      = ⟨500, "boom", false, "st2"⟩ :=
  ⟨(errorConverter_translates_errors ⟨none, true, false, "email must be unique", "st1"⟩
      ⟨500, "x", true, "s"⟩ rfl (by decide)).1 (by decide),
   (errorConverter_translates_errors ⟨none, false, false, "boom", "st2"⟩
      ⟨500, "x", true, "s"⟩ rfl (by decide)).2.1 (by decide)⟩

/-! ## Claim theorems: token lifecycle -/

/-- C6: `verifyToken` fails with Unauthorized when the signature is
invalid, the embedded type mismatches the expected type, the token is
expired, or (for persisted types) every store row for it is missing or
blacklisted; consequently a successful verification guarantees the token
is unexpired and, for persisted types, backed by a non-blacklisted row —
a blacklisted or expired token is never treated as valid. -/
theorem verifyToken_unauthorized_conditions (store : List TokenRec)
    (secret : String) (now : Nat) (t : SignedToken) (expected : TokenType) :
    (t.key ≠ secret →
      verifyToken store secret now t expected = .error .unauthorized) ∧
    (t.payload.exp ≤ now →
      verifyToken store secret now t expected = .error .unauthorized) ∧
    (t.payload.type ≠ expected →
      verifyToken store secret now t expected = .error .unauthorized) ∧
    (isPersistedType expected = true →
      (∀ r ∈ store, r.token = t → r.type = expected →
        r.userId = t.payload.sub → r.blacklisted = true) →
      verifyToken store secret now t expected = .error .unauthorized) ∧
    (∀ v, verifyToken store secret now t expected = .ok v →
      t.key = secret ∧ now < t.payload.exp ∧ t.payload.type = expected ∧
      (isPersistedType expected = true →
        ∃ r, v.record = some r ∧ r ∈ store ∧ r.token = t ∧
          r.blacklisted = false)) := by
  refine ⟨?_, ?_,
    fun hty => verifyToken_err_of_type_mismatch _ _ _ _ _ hty,
    fun hpers hall => verifyToken_err_of_all_blacklisted _ _ _ _ _ hpers hall,
    fun v hv => ?_⟩
  · intro hsig
    exact verifyToken_err_of_jwt_none _ _ _ _ _
      (jwtVerify_none_of _ _ _ (Or.inl hsig))
  · intro hexp
    exact verifyToken_err_of_jwt_none _ _ _ _ _
      (jwtVerify_none_of _ _ _ (Or.inr hexp))
  · obtain ⟨h1, h2, h3, _, h5⟩ := verifyToken_ok_inv _ _ _ _ _ _ hv
    refine ⟨h1, h2, h3, fun hp => ?_⟩
    obtain ⟨r, hr1, hr2, hr3, _, _, hr6⟩ := h5 hp
    exact ⟨r, hr1, hr2, hr3, hr6⟩

/-- A refresh token signed with `"secret"`, subject `"u1"`, expiring at 100. -/
def wTok : SignedToken := generateToken "u1" 0 100 .refresh "secret"

/-- Witness for C6: with the only store row for the token blacklisted,
verification at time 10 (before expiry, correct type, valid signature)
still fails with Unauthorized. -/
theorem verifyToken_unauthorized_conditions_witness :
    verifyToken [⟨wTok, "u1", TokenType.refresh, 100, true⟩] "secret" 10
      wTok .refresh = .error .unauthorized :=
  (verifyToken_unauthorized_conditions
      [⟨wTok, "u1", TokenType.refresh, 100, true⟩] "secret" 10
      wTok .refresh).2.2.2.1 (by decide) (by decide)

/-- C7: a successful `resetPassword` consumes the token before returning —
every reset row of the subject is deleted — so a second call with the same
token string fails with Unauthorized at any later time; and `refreshAuth`
on an already-consumed (rotated or logged-out, i.e. no longer backed by a
non-blacklisted row) refresh token always fails with Unauthorized and
never issues a new pair. -/
theorem resetPassword_single_use (cfg : JwtConfig) (st : AuthState)
    (now : Nat) (t : SignedToken) (pw : String) (st' : AuthState)
    (h : resetPassword cfg st now t pw = .ok st') :
    (∀ now' pw', resetPassword cfg st' now' t pw' = .error .unauthorized) ∧
    (∀ (store2 : List TokenRec) (now2 : Nat) (t2 : SignedToken),
      (∀ r ∈ store2, r.token = t2 → r.type = .refresh →
        r.userId = t2.payload.sub → r.blacklisted = true) →
      refreshAuth cfg store2 now2 t2 = .error .unauthorized) := by
  constructor
  · unfold resetPassword at h
    split at h
    · exact Except.noConfusion h
    · rename_i v hv
      obtain ⟨_, _, _, hpv, _⟩ := verifyToken_ok_inv _ _ _ _ _ _ hv
      simp only [] at h
      split at h
      · injection h with h
        have htk : st'.tokens = st.tokens.filter
            (fun r => ¬(r.userId = v.payload.sub ∧ r.type = .resetPw)) := by
          rw [← h]
        intro now' pw'
        have herr : verifyToken st'.tokens cfg.secret now' t .resetPw
            = .error .unauthorized := by
          apply verifyToken_err_of_all_blacklisted st'.tokens cfg.secret now'
            t .resetPw rfl
          intro r hr h1 h2 h3
          exfalso
          rw [htk] at hr
          have hp := List.of_mem_filter hr
          simp only [decide_eq_true_eq] at hp
          exact hp ⟨by rw [h3, hpv], h2⟩
        unfold resetPassword
        rw [herr]
      · exact Except.noConfusion h
  · intro store2 now2 t2 hall
    have herr := verifyToken_err_of_all_blacklisted store2 cfg.secret now2 t2
      .refresh rfl hall
    unfold refreshAuth
    rw [herr]

/-- The reset flow's concrete fixtures: config, reset token, and a state
holding the persisted reset row and the user. -/
def rpCfg : JwtConfig := ⟨"secret", 30, 30⟩

def rpTok : SignedToken := generateToken "u1" 0 600 .resetPw "secret"

def rpState : AuthState :=
  ⟨[⟨rpTok, "u1", .resetPw, 600, false⟩],
   [("u1", .hash 8 (.plain "password1"))]⟩

/-- Witness for C7: after a successful reset at time 10, replaying the same
reset token at time 20 fails with Unauthorized. -/
theorem resetPassword_single_use_witness :
    resetPassword rpCfg ⟨[], [("u1", Pw.hash 8 (Pw.plain "newpass1"))]⟩ 20
      rpTok "another1" = .error .unauthorized :=
  (resetPassword_single_use rpCfg rpState 10 rpTok "newpass1"
      ⟨[], [("u1", Pw.hash 8 (Pw.plain "newpass1"))]⟩ (by rfl)).1 20
      "another1"

end Boilerplate
